import Mathlib

/-!
Verification development for the GPU fetch/cache/parse core of a Slurm
metrics exporter (package exporter, file gpus.go).

Strings are modelled as lists of characters (all the delimiters involved are
ASCII, so Go's byte-indexed operations coincide with character-indexed ones).
Go float64 values are modelled as rationals: every quantity manipulated here
is produced by decimal parsing, addition, subtraction and division of decimal
inputs, which the rationals carry exactly.
-/

/-- Character-level model of the Go `strings.Contains(s, string(c))` test for a
single character needle. -/
def containsChar (c : Char) (s : List Char) : Bool :=
  decide (c ∈ s)

/-- Unicode white space as far as the inputs at hand go (ASCII space and the
ASCII control white-space characters); model of the cutset used by
`strings.TrimSpace` / `bytes.TrimSpace`. -/
def isSpaceChar (c : Char) : Bool :=
  c = ' ' ∨ c = '\t' ∨ c = '\n' ∨ c = '\r' ∨ c = '\x0b' ∨ c = '\x0c'

/-- Model of `strings.TrimSpace` / `bytes.TrimSpace`: drop white space from
both ends. -/
def trimSpace (s : List Char) : List Char :=
  ((s.dropWhile isSpaceChar).reverse.dropWhile isSpaceChar).reverse

/-- Model of `strings.Trim(s, "\"")`: drop double-quote characters from both
ends. -/
def trimQuotes (s : List Char) : List Char :=
  ((s.dropWhile (· = '"')).reverse.dropWhile (· = '"')).reverse

/-- Model of `strings.Split(s, string(c))` for a one-character separator:
the list of maximal separator-free segments. `splitOnChar c [] = [[]]`,
matching Go, which returns one empty field on empty input. -/
def splitOnChar (c : Char) : List Char → List (List Char)
  | [] => [[]]
  | x :: xs =>
    let r := splitOnChar c xs
    if x = c then [] :: r
    else (x :: r.headD []) :: r.tail

/-- Joins segments with a separator character; inverse of `splitOnChar` on
separator-free segments. Used to state order-independence of comma lists. -/
def joinChar (c : Char) : List (List Char) → List Char
  | [] => []
  | [t] => t
  | t :: ts => t ++ c :: joinChar c ts

/-- Index of the first occurrence of `c` in `s`, or `s.length` when there is
none. `strings.Index(part, "=")` returns -1 when absent; the two conventions
are interchanged by the guard `i + 1 < part.length` used at the call site. -/
def indexOfChar (c : Char) : List Char → Nat
  | [] => 0
  | x :: xs => if x = c then 0 else indexOfChar c xs + 1

/-- Decides whether the substring "gpu" occurs in `s`; callers pass an already
lower-cased `s`, so this together with `List.map Char.toLower` models
`strings.Contains(strings.ToLower(gres), "gpu")`. -/
def containsGpuSub : List Char → Bool
  | 'g' :: 'p' :: 'u' :: _ => true
  | _ :: rest => containsGpuSub rest
  | [] => false

/-- ASCII decimal digit test. -/
def isDigitChar (c : Char) : Bool :=
  '0' ≤ c && c ≤ '9'

/-- Value of a string of ASCII decimal digits, most significant first. -/
def digitsToNat (ds : List Char) : Nat :=
  ds.foldl (fun a c => 10 * a + (c.toNat - 48)) 0

/-- Reads an optional leading sign; returns the negativity flag and the rest
of the input (the whole input when the first character is not a sign). -/
def readSign (s : List Char) : Bool × List Char :=
  match s with
  | [] => (false, s)
  | c :: r => if c = '+' then (false, r) else if c = '-' then (true, r) else (false, s)

/-- Scale factor contributed by a decimal exponent of magnitude `k` with
negativity flag `neg`. -/
def expScale (neg : Bool) (k : Nat) : ℚ :=
  if neg then ((10 : ℚ) ^ k)⁻¹ else (10 : ℚ) ^ k

/-- Exact decimal representation of a parsed float: sign, the mantissa digits
read as one natural number, the number of fraction digits, and the sign and
magnitude of the decimal exponent (zero when no exponent part is present). -/
structure FloatRep where
  neg : Bool
  mant : Nat
  fracLen : Nat
  eneg : Bool
  ex : Nat
deriving DecidableEq

/-- The rational value denoted by a `FloatRep`. -/
def ratOfRep (r : FloatRep) : ℚ :=
  (if r.neg then -1 else 1) * (r.mant : ℚ) / (10 : ℚ) ^ r.fracLen * expScale r.eneg r.ex

/-- Finishes a float parse: `ip` and `fp` are the integer-part and
fraction-part digit strings already read, `rest` is the remaining input, which
must be empty or a well-formed decimal exponent. -/
def parseFloatRepTail (neg : Bool) (ip fp rest : List Char) : Option FloatRep :=
  match rest with
  | [] => some ⟨neg, digitsToNat (ip ++ fp), fp.length, false, 0⟩
  | e :: r =>
    if e = 'e' ∨ e = 'E' then
      let es := readSign r
      let ed := es.2.takeWhile isDigitChar
      let r3 := es.2.dropWhile isDigitChar
      if ed = [] ∨ r3 ≠ [] then none
      else some ⟨neg, digitsToNat (ip ++ fp), fp.length, es.1, digitsToNat ed⟩
    else none

/-- Decimal-form float recognizer: an optional sign, digits with an optional
fraction part (at least one digit overall) and an optional decimal exponent,
consuming the whole input. The `headD` test with a non-'.' default reads: the
input after the integer digits starts with a decimal point. -/
def parseFloatRep (s : List Char) : Option FloatRep :=
  let sgn := readSign s
  let ip := sgn.2.takeWhile isDigitChar
  let r1 := sgn.2.dropWhile isDigitChar
  if r1.headD ' ' = '.' then
    let r2 := r1.tail
    let fp := r2.takeWhile isDigitChar
    let r3 := r2.dropWhile isDigitChar
    if ip.length + fp.length = 0 then none
    else parseFloatRepTail sgn.1 ip fp r3
  else if ip = [] then none else parseFloatRepTail sgn.1 ip [] r1

/-- Model of `strconv.ParseFloat(s, 64)` on its decimal forms. The
hexadecimal, infinity and NaN forms accepted by Go never denote a finite
decimal GPU count and are outside the model (they are treated as parse
failures). The result is exact, where Go rounds to the nearest binary64;
every concrete quantity in this development is exactly representable, so the
distinction never shows. -/
def parseFloatQ (s : List Char) : Option ℚ :=
  (parseFloatRep s).map ratOfRep

/-- The TRES scanning loop of `parseGresGpuCount` (gpus.go lines 325-339):
walks the comma-separated parts; a trimmed part starting with "gres/gpu" whose
first '=' is followed by a nonempty value that parses as a float yields that
value; every other part (including a matching part whose value fails to
parse) is skipped; an exhausted list yields 0. -/
def tresLoop : List (List Char) → ℚ
  | [] => 0
  | p :: rest =>
    let part := trimSpace p
    if ("gres/gpu".data).isPrefixOf part then
      let i := indexOfChar '=' part
      if i + 1 < part.length then
        match parseFloatQ (part.drop (i + 1)) with
        | some count => count
        | none => tresLoop rest
      else tresLoop rest
    else tresLoop rest

/-- The single-token legacy-GRES case of `parseGresGpuCount` (gpus.go lines
352-376): strip a trailing parenthesized annotation, require the substring
"gpu" case-insensitively, split on ':', require at least two parts, and parse
the last part as the count, degrading to 0 on parse failure. `indexOfChar`
returns the length when '(' is absent, so `take` keeps the whole token then. -/
def singleGresCount (g : List Char) : ℚ :=
  let gres := g.take (indexOfChar '(' g)
  if containsGpuSub (gres.map Char.toLower) = false then 0
  else
    let parts := splitOnChar ':' gres
    if parts.length < 2 then 0
    else
      match parseFloatQ (parts.getLastD []) with
      | some count => count
      | none => 0

/-- Embeds the recursive call `parseGresGpuCount(strings.TrimSpace(part))`
made on the parts of the comma branch of `parseGresGpuCount`. Such a part
comes from `strings.Split(gres, ",")` of a string with no '=', so it contains
no ',' and no '=': on those inputs the recursion bottoms out at the sentinel
check, the (dead) TRES branch and the single-token case, which this
definition repeats verbatim. `parseGresPart_eq_parseGresGpuCount` below
proves the flattening faithful. -/
def parseGresPart (p : List Char) : ℚ :=
  let gres := trimSpace p
  if gres = [] ∨ gres = "N/A".data ∨ gres = "(null)".data then 0
  else if containsChar '=' gres then tresLoop (splitOnChar ',' gres)
  else singleGresCount gres

/-- Model of `parseGresGpuCount` (gpus.go lines 317-377). Sentinel inputs
yield 0; inputs containing '=' take the TRES branch; inputs containing ','
(and no '=') are split and the parts summed through the recursive call
(`parseGresPart`); a single token goes through `singleGresCount`. The Go
accumulation loop is rendered as the sum of the mapped list. -/
def parseGresGpuCount (gres : List Char) : ℚ :=
  if gres = [] ∨ gres = "N/A".data ∨ gres = "(null)".data then 0
  else if containsChar '=' gres then tresLoop (splitOnChar ',' gres)
  else if containsChar ',' gres then
    ((splitOnChar ',' gres).map parseGresPart).sum
  else singleGresCount gres

/-! ### Metric snapshots and the fetch pipeline -/

/-- Model of the `GpuMetrics` snapshot struct. -/
structure GpuMetrics where
  alloc : ℚ
  idle : ℚ
  total : ℚ
  utilization : ℚ
deriving DecidableEq

/-- The derived-field computation shared by `GpuJsonFetcher.fetch` (gpus.go
lines 91-102) and `GpuCliFallbackFetcher.fetch` (lines 211-222): idle is
total minus alloc, utilization is alloc over total when total is positive and
zero otherwise. -/
def computeGpuMetrics (totalGpus allocGpus : ℚ) : GpuMetrics :=
  { alloc := allocGpus
    idle := totalGpus - allocGpus
    total := totalGpus
    utilization := if 0 < totalGpus then allocGpus / totalGpus else 0 }

/-- Error kinds of the error taxonomy: transport (the subprocess could not
run), decode (payload not valid JSON), upstream (a non-empty Errors array in
the decoded payload), malformed (the delimited fallback payload failed
row-structure parsing). -/
inductive GpuErr where
  | transport (msg : List Char)
  | decode (msg : List Char)
  | upstream (msg : List Char)
  | malformed (msg : List Char)
deriving DecidableEq

/-- The part of a decoded `sinfoGpuResponse` that `fetchTotalGpus` reads: the
Errors array and the Gres string of each node record. The version/metadata
envelope is decoded but never inspected, so it is omitted. -/
structure sinfoGpuResponse where
  errors : List (List Char)
  nodes : List (List Char)
deriving DecidableEq

/-- The part of a decoded `sacctGpuResponse` that `fetchAllocatedGpus` reads:
the Errors array and the AllocGRES string of each job record. -/
structure sacctGpuResponse where
  errors : List (List Char)
  jobs : List (List Char)
deriving DecidableEq

/-- Combined outcome of one scraper invocation followed by `json.Unmarshal`:
the scraper call fails (transport), the payload fails to decode, or a decoded
response is obtained. The scraper subprocess and the JSON decoder are
external collaborators, so a fetch cycle is modelled as a function of this
outcome. -/
inductive ScrapeDecode (α : Type) where
  | transportErr (msg : List Char)
  | decodeErr (msg : List Char)
  | ok (resp : α)
deriving DecidableEq

/-- Model of `GpuJsonFetcher.fetchTotalGpus` (gpus.go lines 107-134): a
scraper or decode failure propagates with no counter increment; a non-empty
Errors array increments the error counter by the number of entries and fails
with the first entry; otherwise the Gres strings of the node records are
parsed and summed. The second component is the increment this call adds to
the error counter. -/
def fetchTotalGpusJson (input : ScrapeDecode sinfoGpuResponse) : Except GpuErr ℚ × Nat :=
  match input with
  | .transportErr e => (.error (.transport e), 0)
  | .decodeErr e => (.error (.decode e), 0)
  | .ok resp =>
    match resp.errors with
    | e :: es => (.error (.upstream e), (e :: es).length)
    | [] => (.ok ((resp.nodes.map parseGresGpuCount).sum), 0)

/-- Model of `GpuJsonFetcher.fetchAllocatedGpus` (gpus.go lines 136-163),
structurally identical to `fetchTotalGpusJson` but reading the AllocGRES
string of each job record. -/
def fetchAllocatedGpusJson (input : ScrapeDecode sacctGpuResponse) : Except GpuErr ℚ × Nat :=
  match input with
  | .transportErr e => (.error (.transport e), 0)
  | .decodeErr e => (.error (.decode e), 0)
  | .ok resp =>
    match resp.errors with
    | e :: es => (.error (.upstream e), (e :: es).length)
    | [] => (.ok ((resp.jobs.map parseGresGpuCount).sum), 0)

/-- The contribution of one pipe-delimited sinfo fallback record (gpus.go
lines 250-257): a record with fewer than two fields is skipped, otherwise
field 1 is trimmed and parsed. Skipping is rendered as a zero contribution to
the sum. -/
def cliRecordGpus (record : List (List Char)) : ℚ :=
  if record.length < 2 then 0
  else parseGresGpuCount (trimSpace (record.getD 1 []))

/-- Model of `GpuCliFallbackFetcher.fetchTotalGpus` (gpus.go lines 227-260).
The `encoding/csv` reader (pipe delimiter, lazy quotes) is an external
collaborator, abstracted as the function `csvReadAll` from the trimmed raw
bytes to either a parse error or the record matrix. A scraper failure
propagates with no counter increment; empty trimmed output yields zero
without invoking the reader; a reader failure increments the counter by one
and fails; otherwise the records are summed through `cliRecordGpus`. -/
def fetchTotalGpusCli (csvReadAll : List Char → Except (List Char) (List (List (List Char))))
    (raw : Except (List Char) (List Char)) : Except GpuErr ℚ × Nat :=
  match raw with
  | .error e => (.error (.transport e), 0)
  | .ok out =>
    let out := trimSpace out
    if out = [] then (.ok 0, 0)
    else
      match csvReadAll out with
      | .error e => (.error (.malformed e), 1)
      | .ok records => (.ok ((records.map cliRecordGpus).sum), 0)

/-- The contribution of one line of sacct fallback output (gpus.go lines
274-282): the line is trimmed, an empty line is skipped, and surrounding
double quotes are stripped before parsing. -/
def cliLineGpus (line : List Char) : ℚ :=
  let line := trimSpace line
  if line = [] then 0
  else parseGresGpuCount (trimQuotes line)

/-- Model of `GpuCliFallbackFetcher.fetchAllocatedGpus` (gpus.go lines
262-285): a scraper failure propagates; empty trimmed output yields zero;
otherwise the output is split on newlines and the lines are summed through
`cliLineGpus`. No branch increments the error counter. -/
def fetchAllocatedGpusCli (raw : Except (List Char) (List Char)) : Except GpuErr ℚ × Nat :=
  match raw with
  | .error e => (.error (.transport e), 0)
  | .ok out =>
    let out := trimSpace out
    if out = [] then (.ok 0, 0)
    else (.ok (((splitOnChar '\n' out).map cliLineGpus).sum), 0)

/-- Modelled from the spec: the Scraper contract (section 4.1) — a scraper is
bound to one command, and Duration() returns the wall time of its most recent
invocation. The concrete scraper (`NewCliScraper`) is outside the embedded
sources; a fetcher owns two scrapers, so its observable scraper state is the
pair of their stored durations, each overwritten whenever that scraper is
invoked. -/
structure ScraperDurations where
  sinfoDuration : ℚ
  sacctDuration : ℚ
deriving DecidableEq

/-- The upstream behavior met by one `GpuJsonFetcher.fetch` cycle: the
outcome and wall time of the sinfo scrape-and-decode, and of the sacct
scrape-and-decode (met only if the sinfo stage succeeds). -/
structure GpuFetchInputs where
  sinfoIn : ScrapeDecode sinfoGpuResponse
  sinfoElapsed : ℚ
  sacctIn : ScrapeDecode sacctGpuResponse
  sacctElapsed : ℚ

/-- Model of `GpuJsonFetcher.fetch` (gpus.go lines 80-105): run
`fetchTotalGpus` (invoking the sinfo scraper, which records its duration);
on failure stop — the sacct scraper is never invoked; otherwise run
`fetchAllocatedGpus` (invoking the sacct scraper) and on success assemble the
snapshot with `computeGpuMetrics`. Returns the fetch outcome, the scrapers'
duration state, and the total error-counter increment. -/
def gpuJsonFetchRun (inp : GpuFetchInputs) (ds : ScraperDurations) :
    Except GpuErr GpuMetrics × ScraperDurations × Nat :=
  let ds1 := { ds with sinfoDuration := inp.sinfoElapsed }
  match fetchTotalGpusJson inp.sinfoIn with
  | (.error e, n) => (.error e, ds1, n)
  | (.ok totalGpus, n1) =>
    let ds2 := { ds1 with sacctDuration := inp.sacctElapsed }
    match fetchAllocatedGpusJson inp.sacctIn with
    | (.error e, n2) => (.error e, ds2, n1 + n2)
    | (.ok allocGpus, n2) => (.ok (computeGpuMetrics totalGpus allocGpus), ds2, n1 + n2)

/-- The upstream behavior met by one `GpuCliFallbackFetcher.fetch` cycle. -/
structure GpuCliFetchInputs where
  sinfoRaw : Except (List Char) (List Char)
  sinfoElapsed : ℚ
  sacctRaw : Except (List Char) (List Char)
  sacctElapsed : ℚ

/-- Model of `GpuCliFallbackFetcher.fetch` (gpus.go lines 200-225), the CLI
counterpart of `gpuJsonFetchRun`: same sequencing, same derived-field
computation, with the fallback stage functions. -/
def gpuCliFetchRun (csvReadAll : List Char → Except (List Char) (List (List (List Char))))
    (inp : GpuCliFetchInputs) (ds : ScraperDurations) :
    Except GpuErr GpuMetrics × ScraperDurations × Nat :=
  let ds1 := { ds with sinfoDuration := inp.sinfoElapsed }
  match fetchTotalGpusCli csvReadAll inp.sinfoRaw with
  | (.error e, n) => (.error e, ds1, n)
  | (.ok totalGpus, n1) =>
    let ds2 := { ds1 with sacctDuration := inp.sacctElapsed }
    match fetchAllocatedGpusCli inp.sacctRaw with
    | (.error e, n2) => (.error e, ds2, n1 + n2)
    | (.ok allocGpus, n2) => (.ok (computeGpuMetrics totalGpus allocGpus), ds2, n1 + n2)

/-- Model of `ScrapeDuration` for both fetcher variants (gpus.go lines
188-190 and 310-312): both return the sinfo scraper's stored duration. -/
def scrapeDuration (ds : ScraperDurations) : ℚ :=
  ds.sinfoDuration

/-! ### The throttled cache -/

/-- Model of the mutable `gpuCache` struct (gpus.go lines 72-78): the
timestamp of the last stored snapshot, the TTL limit in seconds, the stored
snapshot if any, and the duration of the last successful fetch. Times are
rationals counting seconds from an arbitrary origin. -/
structure GpuCacheState where
  t : ℚ
  limit : ℚ
  cache : Option GpuMetrics
  duration : ℚ
deriving DecidableEq

/-- Model of one `FetchMetrics` call body (gpus.go lines 165-182 and
287-304), which both variants share verbatim. The mutex serializes call
bodies, so a call is one atomic step: given the instant `now` at which the
body runs, the outcome `fr` the backing fetch would produce, and the wall
time `d` it would take, the step returns the call's result, the cache state
it leaves behind, and the number of backing-fetch invocations it performs (0
on a cache hit, 1 otherwise). On a hit — a snapshot exists and its age is
strictly below the limit — the stored snapshot is returned unchanged. On a
miss with a failing fetch the error propagates and the state is untouched.
On a miss with a successful fetch the duration, snapshot and timestamp are
stored (the timestamp is taken after the fetch, hence `now + d`). -/
def fetchMetricsStep {Er : Type} (now : ℚ) (fr : Except Er GpuMetrics) (d : ℚ)
    (st : GpuCacheState) : Except Er GpuMetrics × GpuCacheState × Nat :=
  match st.cache, decide (now - st.t < st.limit) with
  | some m, true => (.ok m, st, 0)
  | _, _ =>
    match fr with
    | .error e => (.error e, st, 1)
    | .ok m => (.ok m, { st with duration := d, cache := some m, t := now + d }, 1)

/-- A serialized sequence of `FetchMetrics` calls against one cache
instance: each list entry is one caller's instant, backing-fetch outcome and
backing-fetch wall time, in lock-acquisition order. Returns the final cache
state, the total number of backing-fetch invocations, and every caller's
result. -/
def runFetchCalls {Er : Type} (st : GpuCacheState) :
    List (ℚ × Except Er GpuMetrics × ℚ) → GpuCacheState × Nat × List (Except Er GpuMetrics)
  | [] => (st, 0, [])
  | (now, fr, d) :: rest =>
    let step := fetchMetricsStep now fr d st
    let tail := runFetchCalls step.2.1 rest
    (tail.1, step.2.2 + tail.2.1, step.1 :: tail.2.2)

/-! ### Helper lemmas: the cache step -/

/-- A cache hit returns the stored snapshot, leaves the state untouched and
performs no backing-fetch invocation, whatever the backing fetch would do. -/
theorem fetchMetricsStep_hit {Er : Type} (now d : ℚ) (fr : Except Er GpuMetrics)
    (st : GpuCacheState) (m : GpuMetrics)
    (h1 : st.cache = some m) (h2 : now - st.t < st.limit) :
    fetchMetricsStep now fr d st = (.ok m, st, 0) := by
  simp [fetchMetricsStep, h1, h2]

/-- A cache miss with a failing backing fetch propagates the error, leaves
the state untouched and performs one backing-fetch invocation. -/
theorem fetchMetricsStep_miss_error {Er : Type} (now d : ℚ) (e : Er)
    (st : GpuCacheState) (h : st.cache = none ∨ ¬ now - st.t < st.limit) :
    fetchMetricsStep now (.error e) d st = (.error e, st, 1) := by
  rcases hc : st.cache with _ | m
  · simp [fetchMetricsStep, hc]
  · rcases h with h | h
    · rw [hc] at h; exact absurd h (by simp)
    · simp [fetchMetricsStep, hc, h]

/-- A cache miss with a successful backing fetch stores the snapshot, the
fetch duration and the post-fetch timestamp, and performs one invocation. -/
theorem fetchMetricsStep_miss_ok {Er : Type} (now d : ℚ) (m : GpuMetrics)
    (st : GpuCacheState) (h : st.cache = none ∨ ¬ now - st.t < st.limit) :
    @fetchMetricsStep Er now (.ok m) d st
      = (.ok m, { st with duration := d, cache := some m, t := now + d }, 1) := by
  rcases hc : st.cache with _ | m'
  · simp [fetchMetricsStep, hc]
  · rcases h with h | h
    · rw [hc] at h; exact absurd h (by simp)
    · simp [fetchMetricsStep, hc, h]

/-- After any call that returns a snapshot, that snapshot is the stored one,
and the limit is unchanged. -/
theorem fetchMetricsStep_ok_stored {Er : Type} (now d : ℚ) (fr : Except Er GpuMetrics)
    (st st' : GpuCacheState) (m : GpuMetrics) (n : Nat)
    (h : fetchMetricsStep now fr d st = (.ok m, st', n)) :
    st'.cache = some m ∧ st'.limit = st.limit := by
  rcases hc : st.cache with _ | m'
  · rcases fr with e | m''
    · simp [fetchMetricsStep, hc] at h
    · simp [fetchMetricsStep, hc] at h
      obtain ⟨h1, h2, _⟩ := h
      subst h1; rw [← h2]; exact ⟨rfl, rfl⟩
  · by_cases hfresh : now - st.t < st.limit
    · rw [fetchMetricsStep_hit now d fr st m' hc hfresh] at h
      simp at h
      obtain ⟨h1, h2, _⟩ := h
      subst h2; rw [← h1]; exact ⟨hc, rfl⟩
    · rcases fr with e | m''
      · rw [fetchMetricsStep_miss_error now d e st (Or.inr hfresh)] at h
        simp at h
      · rw [fetchMetricsStep_miss_ok now d m'' st (Or.inr hfresh)] at h
        simp at h
        obtain ⟨h1, h2, _⟩ := h
        subst h1; rw [← h2]; exact ⟨rfl, rfl⟩

/-! ### Helper lemmas: parser branches and concrete evaluation -/

/-- An input that is neither a sentinel nor contains '=' or ',' is a single
legacy-GRES token. -/
theorem parseGres_single_branch (g : List Char)
    (h0 : ¬(g = [] ∨ g = "N/A".data ∨ g = "(null)".data))
    (h1 : containsChar '=' g = false) (h2 : containsChar ',' g = false) :
    parseGresGpuCount g = singleGresCount g := by
  simp [parseGresGpuCount, h0, h1, h2]

/-- An input containing '=' takes the TRES branch. -/
theorem parseGres_tres_branch (g : List Char)
    (h0 : ¬(g = [] ∨ g = "N/A".data ∨ g = "(null)".data))
    (h1 : containsChar '=' g = true) :
    parseGresGpuCount g = tresLoop (splitOnChar ',' g) := by
  simp [parseGresGpuCount, h0, h1]

/-- An input containing ',' but no '=' is split and the parts summed. -/
theorem parseGres_comma_branch (g : List Char)
    (h0 : ¬(g = [] ∨ g = "N/A".data ∨ g = "(null)".data))
    (h1 : containsChar '=' g = false) (h2 : containsChar ',' g = true) :
    parseGresGpuCount g = ((splitOnChar ',' g).map parseGresPart).sum := by
  simp [parseGresGpuCount, h0, h1, h2]

/-- A part whose trimmed form is neither a sentinel nor contains '=' goes to
the single-token case. -/
theorem parseGresPart_single (p : List Char)
    (h0 : ¬(trimSpace p = [] ∨ trimSpace p = "N/A".data ∨ trimSpace p = "(null)".data))
    (h1 : containsChar '=' (trimSpace p) = false) :
    parseGresPart p = singleGresCount (trimSpace p) := by
  simp [parseGresPart, h0, h1]

/-- The flattening of the Go recursion is faithful: on any part whose
trimmed form is comma-free — as every part produced by the comma branch is —
`parseGresPart` agrees with the full parser applied to the trimmed part. -/
theorem parseGresPart_eq_parseGresGpuCount (p : List Char)
    (h : containsChar ',' (trimSpace p) = false) :
    parseGresPart p = parseGresGpuCount (trimSpace p) := by
  by_cases h0 : trimSpace p = [] ∨ trimSpace p = "N/A".data ∨ trimSpace p = "(null)".data
  · simp [parseGresPart, parseGresGpuCount, h0]
  · by_cases h1 : containsChar '=' (trimSpace p) = true
    · simp [parseGresPart, parseGresGpuCount, h0, h1]
    · simp only [Bool.not_eq_true] at h1
      simp [parseGresPart, parseGresGpuCount, h0, h1, h]

/-- Evaluation of the single-token case when the token carries a parsable
count. -/
theorem singleGres_eval (g : List Char) (r : FloatRep)
    (h1 : containsGpuSub ((g.take (indexOfChar '(' g)).map Char.toLower) = true)
    (h2 : ¬ (splitOnChar ':' (g.take (indexOfChar '(' g))).length < 2)
    (h3 : parseFloatRep ((splitOnChar ':' (g.take (indexOfChar '(' g))).getLastD []) = some r) :
    singleGresCount g = ratOfRep r := by
  simp only [singleGresCount, h1, h2, parseFloatQ, h3, Option.map_some', if_neg,
    Bool.true_eq_false, if_false, reduceIte]

/-- The single-token case yields zero when the token has no (case-folded)
"gpu" substring. -/
theorem singleGres_nogpu (g : List Char)
    (h1 : containsGpuSub ((g.take (indexOfChar '(' g)).map Char.toLower) = false) :
    singleGresCount g = 0 := by
  simp only [singleGresCount, h1, if_pos, reduceIte]

/-- The single-token case yields zero when splitting on ':' leaves fewer
than two parts. -/
theorem singleGres_short (g : List Char)
    (h2 : (splitOnChar ':' (g.take (indexOfChar '(' g))).length < 2) :
    singleGresCount g = 0 := by
  by_cases h1 : containsGpuSub ((g.take (indexOfChar '(' g)).map Char.toLower) = false
  · simp only [singleGresCount, h1, reduceIte]
  · simp only [Bool.not_eq_false] at h1
    simp only [singleGresCount, h1, h2, Bool.true_eq_false, reduceIte, if_pos]

/-- The single-token case yields zero when the final ':'-separated segment
fails float parsing. -/
theorem singleGres_badcount (g : List Char)
    (h2 : ¬ (splitOnChar ':' (g.take (indexOfChar '(' g))).length < 2)
    (h3 : parseFloatRep ((splitOnChar ':' (g.take (indexOfChar '(' g))).getLastD []) = none) :
    singleGresCount g = 0 := by
  by_cases h1 : containsGpuSub ((g.take (indexOfChar '(' g)).map Char.toLower) = false
  · simp only [singleGresCount, h1, reduceIte]
  · simp only [Bool.not_eq_false] at h1
    simp only [singleGresCount, h1, h2, parseFloatQ, h3, Option.map_none', Bool.true_eq_false,
      reduceIte, if_neg]

/-- A TRES part that does not start (after trimming) with "gres/gpu" is
skipped. -/
theorem tresLoop_skip (p : List Char) (rest : List (List Char))
    (h : ("gres/gpu".data).isPrefixOf (trimSpace p) = false) :
    tresLoop (p :: rest) = tresLoop rest := by
  simp [tresLoop, h]

/-- A TRES part that starts with "gres/gpu" and whose value after the first
'=' parses yields that value. -/
theorem tresLoop_hit (p : List Char) (rest : List (List Char)) (r : FloatRep)
    (h1 : ("gres/gpu".data).isPrefixOf (trimSpace p) = true)
    (h2 : indexOfChar '=' (trimSpace p) + 1 < (trimSpace p).length)
    (h3 : parseFloatRep ((trimSpace p).drop (indexOfChar '=' (trimSpace p) + 1)) = some r) :
    tresLoop (p :: rest) = ratOfRep r := by
  simp [tresLoop, h1, h2, parseFloatQ, h3]

/-! ### Helper lemmas: splitting, joining and membership -/

/-- Unfolding equation for `splitOnChar` on a cons cell. -/
theorem splitOnChar_cons (c x : Char) (xs : List Char) :
    splitOnChar c (x :: xs) = if x = c then [] :: splitOnChar c xs
      else (x :: (splitOnChar c xs).headD []) :: (splitOnChar c xs).tail := rfl

/-- Splitting never produces an empty list of parts. -/
theorem splitOnChar_ne_nil (c : Char) (s : List Char) : splitOnChar c s ≠ [] := by
  induction s with
  | nil => simp [splitOnChar]
  | cons x xs ih =>
    rw [splitOnChar_cons]
    by_cases h : x = c <;> simp [h]

/-- Every character of a part is a character of the split string. -/
theorem mem_of_mem_splitOnChar (c a : Char) (s p : List Char)
    (hp : p ∈ splitOnChar c s) (ha : a ∈ p) : a ∈ s := by
  induction s generalizing p with
  | nil =>
    simp only [splitOnChar, List.mem_singleton] at hp
    subst hp
    exact absurd ha (List.not_mem_nil a)
  | cons x xs ih =>
    rcases hr : splitOnChar c xs with _ | ⟨t, ts⟩
    · exact absurd hr (splitOnChar_ne_nil c xs)
    · rw [splitOnChar_cons, hr] at hp
      by_cases h : x = c
      · rw [if_pos h] at hp
        rcases List.mem_cons.mp hp with hp1 | hp1
        · subst hp1; exact absurd ha (List.not_mem_nil a)
        · exact List.mem_cons_of_mem x (ih p (hr ▸ hp1) ha)
      · rw [if_neg h] at hp
        simp only [List.headD_cons, List.tail_cons] at hp
        rcases List.mem_cons.mp hp with hp1 | hp1
        · subst hp1
          rcases List.mem_cons.mp ha with ha1 | ha1
          · exact ha1 ▸ List.mem_cons_self x xs
          · exact List.mem_cons_of_mem x (ih t (hr ▸ List.mem_cons_self t ts) ha1)
        · exact List.mem_cons_of_mem x (ih p (hr ▸ List.mem_cons_of_mem t hp1) ha)

/-- No part of a split contains the separator. -/
theorem sep_not_mem_of_mem_splitOnChar (c : Char) (s p : List Char)
    (hp : p ∈ splitOnChar c s) : c ∉ p := by
  induction s generalizing p with
  | nil =>
    simp only [splitOnChar, List.mem_singleton] at hp
    subst hp
    exact List.not_mem_nil c
  | cons x xs ih =>
    rcases hr : splitOnChar c xs with _ | ⟨t, ts⟩
    · exact absurd hr (splitOnChar_ne_nil c xs)
    · rw [splitOnChar_cons, hr] at hp
      by_cases h : x = c
      · rw [if_pos h] at hp
        rcases List.mem_cons.mp hp with hp1 | hp1
        · subst hp1; exact List.not_mem_nil c
        · exact ih p (hr ▸ hp1)
      · rw [if_neg h] at hp
        simp only [List.headD_cons, List.tail_cons] at hp
        rcases List.mem_cons.mp hp with hp1 | hp1
        · subst hp1
          intro hmem
          rcases List.mem_cons.mp hmem with h1 | h1
          · exact h h1.symm
          · exact ih t (hr ▸ List.mem_cons_self t ts) h1
        · exact ih p (hr ▸ List.mem_cons_of_mem t hp1)

/-- Splitting a separator-free string returns it as the only part. -/
theorem splitOnChar_of_not_mem (c : Char) (s : List Char) (h : c ∉ s) :
    splitOnChar c s = [s] := by
  induction s with
  | nil => rfl
  | cons x xs ih =>
    have hx : ¬ x = c := fun hxc => h (hxc ▸ List.mem_cons_self x xs)
    have hxs : c ∉ xs := fun hm => h (List.mem_cons_of_mem x hm)
    rw [splitOnChar_cons, if_neg hx, ih hxs]
    rfl

/-- Splitting a string that starts with a separator-free segment followed by
a separator peels off that segment. -/
theorem splitOnChar_append_sep (c : Char) (t rest : List Char) (h : c ∉ t) :
    splitOnChar c (t ++ c :: rest) = t :: splitOnChar c rest := by
  induction t with
  | nil => simp [splitOnChar_cons]
  | cons x xs ih =>
    have hx : ¬ x = c := fun hxc => h (hxc ▸ List.mem_cons_self x xs)
    have hxs : c ∉ xs := fun hm => h (List.mem_cons_of_mem x hm)
    rw [List.cons_append, splitOnChar_cons, ih hxs, if_neg hx]
    rfl

/-- Splitting inverts joining on nonempty lists of separator-free parts. -/
theorem splitOnChar_joinChar (c : Char) (l : List (List Char)) (hne : l ≠ [])
    (h : ∀ t ∈ l, c ∉ t) : splitOnChar c (joinChar c l) = l := by
  induction l with
  | nil => exact absurd rfl hne
  | cons t ts ih =>
    rcases ts with _ | ⟨u, us⟩
    · simp only [joinChar]
      exact splitOnChar_of_not_mem c t (h t (List.mem_cons_self t []))
    · have ht : c ∉ t := h t (List.mem_cons_self t (u :: us))
      have hrec : ∀ x ∈ u :: us, c ∉ x := fun x hx => h x (List.mem_cons_of_mem t hx)
      show splitOnChar c (t ++ c :: joinChar c (u :: us)) = t :: u :: us
      rw [splitOnChar_append_sep c t _ ht, ih (by simp) hrec]

/-- Every character of the join is the separator or a character of a part. -/
theorem mem_joinChar (c a : Char) (l : List (List Char)) (h : a ∈ joinChar c l) :
    a = c ∨ ∃ t ∈ l, a ∈ t := by
  induction l with
  | nil => simp [joinChar] at h
  | cons t ts ih =>
    rcases ts with _ | ⟨u, us⟩
    · simp only [joinChar] at h
      exact Or.inr ⟨t, List.mem_cons_self t [], h⟩
    · have h2 : a ∈ t ++ c :: joinChar c (u :: us) := h
      rcases List.mem_append.mp h2 with h3 | h3
      · exact Or.inr ⟨t, List.mem_cons_self t (u :: us), h3⟩
      · rcases List.mem_cons.mp h3 with h4 | h4
        · exact Or.inl h4
        · rcases ih h4 with h5 | ⟨x, hx, hax⟩
          · exact Or.inl h5
          · exact Or.inr ⟨x, List.mem_cons_of_mem t hx, hax⟩

/-- A join of at least two parts contains the separator. -/
theorem sep_mem_joinChar (c : Char) (t u : List Char) (us : List (List Char)) :
    c ∈ joinChar c (t :: u :: us) := by
  show c ∈ t ++ c :: joinChar c (u :: us)
  exact List.mem_append.mpr (Or.inr (List.mem_cons_self c _))

/-- Characters survive `dropWhile` membership-wise. -/
theorem mem_of_mem_dropWhile (p : Char → Bool) (a : Char) (l : List Char)
    (h : a ∈ l.dropWhile p) : a ∈ l := by
  induction l with
  | nil => simp [List.dropWhile] at h
  | cons x xs ih =>
    rw [List.dropWhile_cons] at h
    by_cases hx : p x = true
    · rw [if_pos hx] at h
      exact List.mem_cons_of_mem x (ih h)
    · rw [if_neg hx] at h
      exact h

/-- Characters survive `takeWhile` membership-wise. -/
theorem mem_of_mem_takeWhile (p : Char → Bool) (a : Char) (l : List Char)
    (h : a ∈ l.takeWhile p) : a ∈ l := by
  induction l with
  | nil => simp [List.takeWhile] at h
  | cons x xs ih =>
    rw [List.takeWhile_cons] at h
    by_cases hx : p x = true
    · rw [if_pos hx] at h
      rcases List.mem_cons.mp h with h1 | h1
      · exact h1 ▸ List.mem_cons_self x xs
      · exact List.mem_cons_of_mem x (ih h1)
    · rw [if_neg hx] at h
      exact absurd h (List.not_mem_nil a)

/-- Characters of the trimmed string are characters of the original. -/
theorem mem_of_mem_trimSpace (a : Char) (s : List Char) (h : a ∈ trimSpace s) : a ∈ s := by
  simp only [trimSpace, List.mem_reverse] at h
  have h1 := mem_of_mem_dropWhile _ _ _ h
  rw [List.mem_reverse] at h1
  exact mem_of_mem_dropWhile _ _ _ h1

/-- Characters of the quote-trimmed string are characters of the original. -/
theorem mem_of_mem_trimQuotes (a : Char) (s : List Char) (h : a ∈ trimQuotes s) : a ∈ s := by
  simp only [trimQuotes, List.mem_reverse] at h
  have h1 := mem_of_mem_dropWhile _ _ _ h
  rw [List.mem_reverse] at h1
  exact mem_of_mem_dropWhile _ _ _ h1

/-- The last element with default is a member of any nonempty list. -/
theorem getLastD_mem (l : List (List Char)) (d : List Char) (hne : l ≠ []) :
    l.getLastD d ∈ l := by
  induction l generalizing d with
  | nil => exact absurd rfl hne
  | cons t ts ih =>
    rcases hts : ts with _ | ⟨u, us⟩
    · simp [List.getLastD]
    · rw [List.getLastD_cons]
      subst hts
      exact List.mem_cons_of_mem t (ih t (by simp))

/-! ### Helper lemmas: non-negativity of parsed quantities -/

/-- Without a '-' character in the input, the sign read is non-negative. -/
theorem readSign_not_neg (s : List Char) (h : '-' ∉ s) : (readSign s).1 = false := by
  rcases s with _ | ⟨c, r⟩
  · rfl
  · by_cases h1 : c = '+'
    · simp [readSign, h1]
    · by_cases h2 : c = '-'
      · subst h2
        exact absurd (List.mem_cons_self '-' r) h
      · simp [readSign, h1, h2]

/-- `parseFloatRepTail` passes its sign flag through unchanged. -/
theorem parseFloatRepTail_neg (neg : Bool) (ip fp rest : List Char) (r : FloatRep)
    (h : parseFloatRepTail neg ip fp rest = some r) : r.neg = neg := by
  rcases rest with _ | ⟨e, rr⟩
  · simp only [parseFloatRepTail, Option.some.injEq] at h
    rw [← h]
  · simp only [parseFloatRepTail] at h
    split_ifs at h
    all_goals
      first
        | exact Option.noConfusion h
        | (simp only [Option.some.injEq] at h; rw [← h])

/-- Without a '-' character in the input, a successful float parse carries a
non-negative sign flag. -/
theorem parseFloatRep_neg_false (s : List Char) (r : FloatRep)
    (h : '-' ∉ s) (hp : parseFloatRep s = some r) : r.neg = false := by
  have hsgn : (readSign s).1 = false := readSign_not_neg s h
  simp only [parseFloatRep] at hp
  split_ifs at hp with h1 h2
  · exact hsgn ▸ parseFloatRepTail_neg _ _ _ _ _ hp
  · exact hsgn ▸ parseFloatRepTail_neg _ _ _ _ _ hp

/-- The exponent scale factor is non-negative. -/
theorem expScale_nonneg (b : Bool) (k : Nat) : 0 ≤ expScale b k := by
  unfold expScale
  split_ifs
  · exact inv_nonneg.mpr (pow_nonneg (by norm_num) k)
  · exact pow_nonneg (by norm_num) k

/-- A float representation with a non-negative sign flag denotes a
non-negative rational. -/
theorem ratOfRep_nonneg (r : FloatRep) (h : r.neg = false) : 0 ≤ ratOfRep r := by
  unfold ratOfRep
  rw [h]
  refine mul_nonneg (div_nonneg ?_ ?_) (expScale_nonneg r.eneg r.ex)
  · simp
  · exact pow_nonneg (by norm_num) r.fracLen

/-- Without a '-' character in the input, a successful float parse yields a
non-negative value. -/
theorem parseFloatQ_nonneg (s : List Char) (q : ℚ)
    (h : '-' ∉ s) (hp : parseFloatQ s = some q) : 0 ≤ q := by
  rcases hr : parseFloatRep s with _ | r
  · rw [parseFloatQ, hr] at hp
    exact absurd hp (by simp)
  · rw [parseFloatQ, hr, Option.map_some', Option.some.injEq] at hp
    rw [← hp]
    exact ratOfRep_nonneg r (parseFloatRep_neg_false s r h hr)

/-- Without a '-' character in the token, the single-token case yields a
non-negative count. -/
theorem singleGresCount_nonneg (g : List Char) (h : '-' ∉ g) : 0 ≤ singleGresCount g := by
  by_cases h1 : containsGpuSub ((g.take (indexOfChar '(' g)).map Char.toLower) = false
  · rw [singleGres_nogpu g h1]
  · simp only [Bool.not_eq_false] at h1
    by_cases h2 : (splitOnChar ':' (g.take (indexOfChar '(' g))).length < 2
    · rw [singleGres_short g h2]
    · rcases hpf : parseFloatRep ((splitOnChar ':' (g.take (indexOfChar '(' g))).getLastD [])
        with _ | r
      · rw [singleGres_badcount g h2 hpf]
      · rw [singleGres_eval g r h1 h2 hpf]
        refine ratOfRep_nonneg r (parseFloatRep_neg_false _ r ?_ hpf)
        intro hmem
        have hlast := getLastD_mem (splitOnChar ':' (g.take (indexOfChar '(' g))) []
          (splitOnChar_ne_nil ':' _)
        have h3 := mem_of_mem_splitOnChar ':' '-' _ _ hlast hmem
        exact h (List.take_subset _ g h3)

/-- Without a '-' character in any part, the TRES scan yields a non-negative
count. -/
theorem tresLoop_nonneg (l : List (List Char)) (h : ∀ p ∈ l, '-' ∉ p) :
    0 ≤ tresLoop l := by
  induction l with
  | nil => simp [tresLoop]
  | cons p rest ih =>
    have hrest : ∀ q ∈ rest, '-' ∉ q := fun q hq => h q (List.mem_cons_of_mem p hq)
    simp only [tresLoop]
    split_ifs with h1 h2
    · rcases hpf : parseFloatRep ((trimSpace p).drop (indexOfChar '=' (trimSpace p) + 1))
        with _ | r
      · simp only [parseFloatQ, hpf, Option.map_none']
        exact ih hrest
      · simp only [parseFloatQ, hpf, Option.map_some']
        refine ratOfRep_nonneg r (parseFloatRep_neg_false _ r ?_ hpf)
        intro hmem
        have h3 := mem_of_mem_trimSpace '-' p (List.drop_subset _ _ hmem)
        exact h p (List.mem_cons_self p rest) h3
    · exact ih hrest
    · exact ih hrest

/-- Without a '-' character in the part, the flattened recursive call yields
a non-negative count. -/
theorem parseGresPart_nonneg (p : List Char) (h : '-' ∉ p) : 0 ≤ parseGresPart p := by
  by_cases h0 : trimSpace p = [] ∨ trimSpace p = "N/A".data ∨ trimSpace p = "(null)".data
  · simp [parseGresPart, h0]
  · by_cases h1 : containsChar '=' (trimSpace p) = true
    · rw [show parseGresPart p = tresLoop (splitOnChar ',' (trimSpace p)) from by
        simp [parseGresPart, h0, h1]]
      refine tresLoop_nonneg _ (fun q hq hmem => ?_)
      have h3 := mem_of_mem_splitOnChar ',' '-' _ _ hq hmem
      exact h (mem_of_mem_trimSpace '-' p h3)
    · simp only [Bool.not_eq_true] at h1
      rw [parseGresPart_single p h0 h1]
      exact singleGresCount_nonneg _ (fun hmem => h (mem_of_mem_trimSpace '-' p hmem))

/-- Without a '-' character in the input, the parsed GPU count is
non-negative. -/
theorem parseGresGpuCount_nonneg (g : List Char) (h : '-' ∉ g) :
    0 ≤ parseGresGpuCount g := by
  by_cases h0 : g = [] ∨ g = "N/A".data ∨ g = "(null)".data
  · simp [parseGresGpuCount, h0]
  · by_cases h1 : containsChar '=' g = true
    · rw [parseGres_tres_branch g h0 h1]
      refine tresLoop_nonneg _ (fun q hq hmem => ?_)
      exact h (mem_of_mem_splitOnChar ',' '-' _ _ hq hmem)
    · simp only [Bool.not_eq_true] at h1
      by_cases h2 : containsChar ',' g = true
      · rw [parseGres_comma_branch g h0 h1 h2]
        refine List.sum_nonneg (fun x hx => ?_)
        rcases List.mem_map.mp hx with ⟨q, hq, hqx⟩
        rw [← hqx]
        exact parseGresPart_nonneg q
          (fun hmem => h (mem_of_mem_splitOnChar ',' '-' _ _ hq hmem))
      · simp only [Bool.not_eq_true] at h2
        rw [parseGres_single_branch g h0 h1 h2]
        exact singleGresCount_nonneg g h

/-! ### Helper lemmas: serialized call sequences -/

/-- While the stored snapshot stays fresh for every listed caller, a
serialized sequence of calls performs no backing-fetch invocation, leaves the
state unchanged and answers every caller with the stored snapshot. -/
theorem runFetchCalls_hits {Er : Type} (st : GpuCacheState) (m : GpuMetrics)
    (calls : List (ℚ × Except Er GpuMetrics × ℚ))
    (hm : st.cache = some m) (hfresh : ∀ c ∈ calls, c.1 - st.t < st.limit) :
    runFetchCalls st calls = (st, 0, calls.map (fun _ => .ok m)) := by
  induction calls with
  | nil => rfl
  | cons c rest ih =>
    rcases c with ⟨now, fr, d⟩
    have hhit := fetchMetricsStep_hit now d fr st m hm
      (hfresh (now, fr, d) (List.mem_cons_self _ _))
    simp only [runFetchCalls, hhit]
    rw [ih (fun c hc => hfresh c (List.mem_cons_of_mem _ hc))]
    rfl

/-- C1: on a cache hit — a snapshot exists and its age is strictly below the
TTL limit — FetchMetrics returns the cached snapshot and performs no
backing-fetch (hence no scraper) invocation; consequently, after any call
that returns a snapshot, a second call within the TTL window returns that
same snapshot with zero additional invocations, whatever the backing fetcher
would now produce (in particular against an unchanged one). -/
theorem claim_C1_cache_hit_idempotence :
    (∀ (Er : Type) (st : GpuCacheState) (now d : ℚ) (fr : Except Er GpuMetrics)
      (m : GpuMetrics), st.cache = some m → now - st.t < st.limit →
      fetchMetricsStep now fr d st = (.ok m, st, 0)) ∧
    (∀ (Er : Type) (st st' : GpuCacheState) (now₁ now₂ d₁ d₂ : ℚ)
      (fr₁ fr₂ : Except Er GpuMetrics) (m : GpuMetrics) (n : Nat),
      fetchMetricsStep now₁ fr₁ d₁ st = (.ok m, st', n) →
      now₂ - st'.t < st'.limit →
      fetchMetricsStep now₂ fr₂ d₂ st' = (.ok m, st', 0)) := by
  constructor
  · intro Er st now d fr m h1 h2
    exact fetchMetricsStep_hit now d fr st m h1 h2
  · intro Er st st' now₁ now₂ d₁ d₂ fr₁ fr₂ m n h1 h2
    obtain ⟨hc, _⟩ := fetchMetricsStep_ok_stored now₁ d₁ fr₁ st st' m n h1
    exact fetchMetricsStep_hit now₂ d₂ fr₂ st' m hc h2

/-- Witness for C1 at concrete inputs: a hit against a populated cache, and
a second call one time unit after a successful refresh of an empty cache. -/
theorem claim_C1_cache_hit_idempotence_witness :
    @fetchMetricsStep Unit 1 (.error ()) 0 ⟨0, 10, some ⟨1, 1, 2, 1/2⟩, 0⟩
        = (.ok ⟨1, 1, 2, 1/2⟩, ⟨0, 10, some ⟨1, 1, 2, 1/2⟩, 0⟩, 0) ∧
    @fetchMetricsStep Unit 2 (.error ()) 0 ⟨0 + 1, 10, some ⟨1, 1, 2, 1/2⟩, 1⟩
        = (.ok ⟨1, 1, 2, 1/2⟩, ⟨0 + 1, 10, some ⟨1, 1, 2, 1/2⟩, 1⟩, 0) :=
  ⟨claim_C1_cache_hit_idempotence.1 Unit ⟨0, 10, some ⟨1, 1, 2, 1/2⟩, 0⟩ 1 0
      (.error ()) ⟨1, 1, 2, 1/2⟩ rfl (by norm_num),
   claim_C1_cache_hit_idempotence.2 Unit ⟨0, 10, none, 0⟩
      ⟨0 + 1, 10, some ⟨1, 1, 2, 1/2⟩, 1⟩ 0 2 1 0 (.ok ⟨1, 1, 2, 1/2⟩) (.error ())
      ⟨1, 1, 2, 1/2⟩ 1
      (fetchMetricsStep_miss_ok 0 1 ⟨1, 1, 2, 1/2⟩ ⟨0, 10, none, 0⟩ (Or.inl rfl))
      (by norm_num)⟩

/-- C2: on a cache miss whose underlying fetch fails, the error propagates
to the caller and the cache state — snapshot, timestamp, limit, duration —
is left exactly as it was (a stale snapshot survives, no error is cached),
and any later call at or after that instant performs a backing-fetch
invocation again. -/
theorem claim_C2_error_preserves_cache :
    ∀ (Er : Type) (st : GpuCacheState) (now d : ℚ) (e : Er),
      (st.cache = none ∨ ¬ now - st.t < st.limit) →
      fetchMetricsStep now (.error e) d st = (.error e, st, 1) ∧
      ∀ (now₂ d₂ : ℚ) (e₂ : Er), now ≤ now₂ →
        fetchMetricsStep now₂ (.error e₂) d₂ st = (.error e₂, st, 1) := by
  intro Er st now d e hmiss
  refine ⟨fetchMetricsStep_miss_error now d e st hmiss, ?_⟩
  intro now₂ d₂ e₂ hle
  refine fetchMetricsStep_miss_error now₂ d₂ e₂ st ?_
  rcases hmiss with h | h
  · exact Or.inl h
  · exact Or.inr (fun h2 => h (by linarith))

/-- Witness for C2 at a concrete input: an empty cache, a failing fetch, and
a retry two time units later. -/
theorem claim_C2_error_preserves_cache_witness :
    @fetchMetricsStep Unit 0 (.error ()) 3 ⟨0, 10, none, 7⟩
        = (.error (), ⟨0, 10, none, 7⟩, 1) ∧
    @fetchMetricsStep Unit 2 (.error ()) 4 ⟨0, 10, none, 7⟩
        = (.error (), ⟨0, 10, none, 7⟩, 1) :=
  ⟨(claim_C2_error_preserves_cache Unit ⟨0, 10, none, 7⟩ 0 3 () (Or.inl rfl)).1,
   (claim_C2_error_preserves_cache Unit ⟨0, 10, none, 7⟩ 0 3 () (Or.inl rfl)).2
      2 4 () (by norm_num)⟩

/-- C9: with the mutex modelled as total serialization of FetchMetrics call
bodies (the lock is held across the whole refresh, so at most one backing
fetch is ever in flight and callers arriving mid-refresh run only after it
completes), a refresh after TTL expiry performs exactly one backing-fetch
invocation no matter how many blocked callers follow within the freshness
window, and every one of those callers observes the freshly stored
snapshot. -/
theorem claim_C9_single_flight (Er : Type) (st : GpuCacheState) (now₀ d : ℚ)
    (m : GpuMetrics) (rest : List (ℚ × Except Er GpuMetrics × ℚ))
    (hmiss : st.cache = none ∨ ¬ now₀ - st.t < st.limit)
    (hrest : ∀ c ∈ rest, c.1 - (now₀ + d) < st.limit) :
    runFetchCalls st ((now₀, .ok m, d) :: rest)
      = ({ st with duration := d, cache := some m, t := now₀ + d }, 1,
         .ok m :: rest.map (fun _ => .ok m)) := by
  simp only [runFetchCalls, fetchMetricsStep_miss_ok now₀ d m st hmiss]
  rw [runFetchCalls_hits { st with duration := d, cache := some m, t := now₀ + d }
    m rest rfl (fun c hc => hrest c hc)]
  rfl

/-- Witness for C9 at a concrete input: an expired cache refreshed at time
zero, with two blocked callers landing inside the fresh window — one
invocation in total and both observe the new snapshot. -/
theorem claim_C9_single_flight_witness :
    @runFetchCalls Unit ⟨0, 10, none, 0⟩
        [(0, .ok ⟨1, 1, 2, 1/2⟩, 1), (1, .error (), 5), (2, .ok ⟨0, 0, 0, 0⟩, 7)]
      = (⟨0 + 1, 10, some ⟨1, 1, 2, 1/2⟩, 1⟩, 1,
         [.ok ⟨1, 1, 2, 1/2⟩, .ok ⟨1, 1, 2, 1/2⟩, .ok ⟨1, 1, 2, 1/2⟩]) := by
  have h := claim_C9_single_flight Unit ⟨0, 10, none, 0⟩ 0 1 ⟨1, 1, 2, 1/2⟩
    [(1, .error (), 5), (2, .ok ⟨0, 0, 0, 0⟩, 7)] (Or.inl rfl)
    (by
      intro c hc
      simp only [List.mem_cons, List.mem_singleton] at hc
      rcases hc with rfl | rfl | h
      · norm_num
      · norm_num
      · simp at h)
  exact h

/-! ### Helper lemmas: fetch pipeline inversion -/

/-- The derived-field invariant of every snapshot assembled by
`computeGpuMetrics`. -/
theorem computeGpuMetrics_inv (t a : ℚ) :
    (computeGpuMetrics t a).idle = (computeGpuMetrics t a).total - (computeGpuMetrics t a).alloc ∧
    (0 < (computeGpuMetrics t a).total →
      (computeGpuMetrics t a).utilization = (computeGpuMetrics t a).alloc / (computeGpuMetrics t a).total) ∧
    (¬ 0 < (computeGpuMetrics t a).total → (computeGpuMetrics t a).utilization = 0) := by
  refine ⟨rfl, ?_, ?_⟩
  · intro h
    have ht : 0 < t := h
    show (if 0 < t then a / t else 0) = a / t
    rw [if_pos ht]
  · intro h
    have ht : ¬ 0 < t := h
    show (if 0 < t then a / t else 0) = 0
    rw [if_neg ht]

/-- Inversion of a successful JSON-variant fetch: both stages decoded with
empty Errors arrays, and the snapshot is assembled by `computeGpuMetrics`
from the two record sums. -/
theorem gpuJsonFetchRun_ok_inv (inp : GpuFetchInputs) (ds ds' : ScraperDurations)
    (m : GpuMetrics) (n : Nat) (h : gpuJsonFetchRun inp ds = (.ok m, ds', n)) :
    ∃ sresp jresp, inp.sinfoIn = .ok sresp ∧ inp.sacctIn = .ok jresp ∧
      sresp.errors = [] ∧ jresp.errors = [] ∧
      m = computeGpuMetrics ((sresp.nodes.map parseGresGpuCount).sum)
            ((jresp.jobs.map parseGresGpuCount).sum) := by
  rcases hsi : inp.sinfoIn with e | e | sresp
  · simp [gpuJsonFetchRun, fetchTotalGpusJson, hsi] at h
  · simp [gpuJsonFetchRun, fetchTotalGpusJson, hsi] at h
  · rcases hse : sresp.errors with _ | ⟨e0, es⟩
    · rcases hji : inp.sacctIn with e | e | jresp
      · simp [gpuJsonFetchRun, fetchTotalGpusJson, fetchAllocatedGpusJson, hsi, hse, hji] at h
      · simp [gpuJsonFetchRun, fetchTotalGpusJson, fetchAllocatedGpusJson, hsi, hse, hji] at h
      · rcases hje : jresp.errors with _ | ⟨e1, es1⟩
        · refine ⟨sresp, jresp, rfl, rfl, hse, hje, ?_⟩
          simp [gpuJsonFetchRun, fetchTotalGpusJson, fetchAllocatedGpusJson,
            hsi, hse, hji, hje] at h
          exact h.1.symm
        · simp [gpuJsonFetchRun, fetchTotalGpusJson, fetchAllocatedGpusJson,
            hsi, hse, hji, hje] at h
    · simp [gpuJsonFetchRun, fetchTotalGpusJson, hsi, hse] at h

/-- Inversion of a successful CLI-variant fetch: both raw scrapes succeeded,
the totals come from the empty-output shortcut or the summed record matrix,
the allocations from the empty-output shortcut or the summed lines, and the
snapshot is assembled by `computeGpuMetrics`. -/
theorem gpuCliFetchRun_ok_inv (csv : List Char → Except (List Char) (List (List (List Char))))
    (inp : GpuCliFetchInputs) (ds ds' : ScraperDurations)
    (m : GpuMetrics) (n : Nat) (h : gpuCliFetchRun csv inp ds = (.ok m, ds', n)) :
    ∃ sbs abs t a, inp.sinfoRaw = .ok sbs ∧ inp.sacctRaw = .ok abs ∧
      (trimSpace sbs = [] ∧ t = 0 ∨
        ∃ recs, csv (trimSpace sbs) = .ok recs ∧ t = (recs.map cliRecordGpus).sum) ∧
      (trimSpace abs = [] ∧ a = 0 ∨
        a = ((splitOnChar '\n' (trimSpace abs)).map cliLineGpus).sum) ∧
      m = computeGpuMetrics t a := by
  rcases hsi : inp.sinfoRaw with e | sbs
  · simp [gpuCliFetchRun, fetchTotalGpusCli, hsi] at h
  · by_cases hst : trimSpace sbs = []
    · rcases hji : inp.sacctRaw with e | abs
      · simp [gpuCliFetchRun, fetchTotalGpusCli, fetchAllocatedGpusCli, hsi, hst, hji] at h
      · by_cases hat : trimSpace abs = []
        · refine ⟨sbs, abs, 0, 0, rfl, rfl, Or.inl ⟨hst, rfl⟩, Or.inl ⟨hat, rfl⟩, ?_⟩
          simp [gpuCliFetchRun, fetchTotalGpusCli, fetchAllocatedGpusCli,
            hsi, hst, hji, hat] at h
          exact h.1.symm
        · refine ⟨sbs, abs, 0, ((splitOnChar '\n' (trimSpace abs)).map cliLineGpus).sum,
            rfl, rfl, Or.inl ⟨hst, rfl⟩, Or.inr rfl, ?_⟩
          simp [gpuCliFetchRun, fetchTotalGpusCli, fetchAllocatedGpusCli,
            hsi, hst, hji, hat] at h
          exact h.1.symm
    · rcases hcsv : csv (trimSpace sbs) with e | recs
      · simp [gpuCliFetchRun, fetchTotalGpusCli, hsi, hst, hcsv] at h
      · rcases hji : inp.sacctRaw with e | abs
        · simp [gpuCliFetchRun, fetchTotalGpusCli, fetchAllocatedGpusCli,
            hsi, hst, hcsv, hji] at h
        · by_cases hat : trimSpace abs = []
          · refine ⟨sbs, abs, (recs.map cliRecordGpus).sum, 0, rfl, rfl,
              Or.inr ⟨recs, hcsv, rfl⟩, Or.inl ⟨hat, rfl⟩, ?_⟩
            simp [gpuCliFetchRun, fetchTotalGpusCli, fetchAllocatedGpusCli,
              hsi, hst, hcsv, hji, hat] at h
            exact h.1.symm
          · refine ⟨sbs, abs, (recs.map cliRecordGpus).sum,
              ((splitOnChar '\n' (trimSpace abs)).map cliLineGpus).sum, rfl, rfl,
              Or.inr ⟨recs, hcsv, rfl⟩, Or.inr rfl, ?_⟩
            simp [gpuCliFetchRun, fetchTotalGpusCli, fetchAllocatedGpusCli,
              hsi, hst, hcsv, hji, hat] at h
            exact h.1.symm

/-- C3: every snapshot produced by a successful fetch — in the
structured-JSON variant and in the CLI-fallback variant alike — satisfies the
shared derived-field formulas: Idle equals Total minus Alloc, and Utilization
equals Alloc over Total when Total is positive and zero otherwise. -/
theorem claim_C3_derived_fields :
    (∀ (inp : GpuFetchInputs) (ds ds' : ScraperDurations) (m : GpuMetrics) (n : Nat),
      gpuJsonFetchRun inp ds = (.ok m, ds', n) →
      m.idle = m.total - m.alloc ∧
      (0 < m.total → m.utilization = m.alloc / m.total) ∧
      (¬ 0 < m.total → m.utilization = 0)) ∧
    (∀ (csv : List Char → Except (List Char) (List (List (List Char))))
      (inp : GpuCliFetchInputs) (ds ds' : ScraperDurations) (m : GpuMetrics) (n : Nat),
      gpuCliFetchRun csv inp ds = (.ok m, ds', n) →
      m.idle = m.total - m.alloc ∧
      (0 < m.total → m.utilization = m.alloc / m.total) ∧
      (¬ 0 < m.total → m.utilization = 0)) := by
  constructor
  · intro inp ds ds' m n h
    obtain ⟨sresp, jresp, _, _, _, _, hm⟩ := gpuJsonFetchRun_ok_inv inp ds ds' m n h
    rw [hm]
    exact computeGpuMetrics_inv _ _
  · intro csv inp ds ds' m n h
    obtain ⟨sbs, abs, t, a, _, _, _, _, hm⟩ := gpuCliFetchRun_ok_inv csv inp ds ds' m n h
    rw [hm]
    exact computeGpuMetrics_inv _ _

/-- Witness for C3 at concrete inputs: empty upstream record lists in both
variants, giving the all-zero snapshot, which satisfies the formulas. -/
theorem claim_C3_derived_fields_witness :
    (computeGpuMetrics 0 0).idle = (computeGpuMetrics 0 0).total - (computeGpuMetrics 0 0).alloc ∧
    ((computeGpuMetrics 0 0).utilization = 0) := by
  have h1 := claim_C3_derived_fields.1 ⟨.ok ⟨[], []⟩, 0, .ok ⟨[], []⟩, 0⟩ ⟨0, 0⟩ ⟨0, 0⟩
    (computeGpuMetrics 0 0) 0 (by simp [gpuJsonFetchRun, fetchTotalGpusJson, fetchAllocatedGpusJson])
  have h2 := claim_C3_derived_fields.2 (fun _ => .ok []) ⟨.ok [], 0, .ok [], 0⟩ ⟨0, 0⟩ ⟨0, 0⟩
    (computeGpuMetrics 0 0) 0 (by simp [gpuCliFetchRun, fetchTotalGpusCli, fetchAllocatedGpusCli, trimSpace])
  exact ⟨h1.1, h1.2.2 (by norm_num [computeGpuMetrics])⟩

/-! ### Helper lemmas: concrete parses and non-negative sums -/

/-- Concrete evaluation: the legacy token "gpu:2" parses to 2. -/
theorem parseGres_eval_gpu_two : parseGresGpuCount "gpu:2".data = 2 := by
  rw [parseGres_single_branch _ (by decide) (by decide) (by decide)]
  rw [singleGres_eval _ ⟨false, 2, 0, false, 0⟩ (by decide) (by decide) (by decide)]
  norm_num [ratOfRep, expScale]

/-- An indexed element with default is a member of a long-enough list. -/
theorem getD_mem_of_lt (l : List (List Char)) (n : Nat) (h : n < l.length) :
    l.getD n [] ∈ l := by
  induction l generalizing n with
  | nil => simp at h
  | cons x xs ih =>
    rcases n with _ | k
    · simp [List.getD]
    · have hk : k < xs.length := by simpa using h
      simpa [List.getD] using List.mem_cons_of_mem x (by simpa [List.getD] using ih k hk)

/-- A record free of '-' characters contributes a non-negative quantity. -/
theorem cliRecordGpus_nonneg (r : List (List Char)) (h : ∀ f ∈ r, '-' ∉ f) :
    0 ≤ cliRecordGpus r := by
  unfold cliRecordGpus
  split_ifs with hlen
  · rfl
  · refine parseGresGpuCount_nonneg _ (fun hmem => ?_)
    have h1 := mem_of_mem_trimSpace '-' _ hmem
    have h2 : r.getD 1 [] ∈ r := getD_mem_of_lt r 1 (by omega)
    exact h (r.getD 1 []) h2 h1

/-- A line free of '-' characters contributes a non-negative quantity. -/
theorem cliLineGpus_nonneg (line : List Char) (h : '-' ∉ line) : 0 ≤ cliLineGpus line := by
  simp only [cliLineGpus]
  split_ifs with hempty
  · rfl
  · refine parseGresGpuCount_nonneg _ (fun hmem => ?_)
    exact h (mem_of_mem_trimSpace '-' _ (mem_of_mem_trimQuotes '-' _ hmem))

/-- Summing parses of '-'-free strings is non-negative. -/
theorem sum_map_parseGres_nonneg (l : List (List Char)) (h : ∀ g ∈ l, '-' ∉ g) :
    0 ≤ (l.map parseGresGpuCount).sum := by
  refine List.sum_nonneg (fun x hx => ?_)
  rcases List.mem_map.mp hx with ⟨g, hg, hgx⟩
  exact hgx ▸ parseGresGpuCount_nonneg g (h g hg)

/-- C4 counterexample: a successful JSON-variant fetch in which sinfo reports
no nodes while sacct reports a running job holding two GPUs. The snapshot has
Alloc = 2 and Total = 0, violating Total ≥ Alloc: the code never enforces any
relation between the two independently scraped sums. -/
theorem claim_C4_counterexample :
    (gpuJsonFetchRun ⟨.ok ⟨[], []⟩, 0, .ok ⟨[], ["gpu:2".data]⟩, 0⟩ ⟨0, 0⟩).1
        = .ok (computeGpuMetrics 0 2) ∧
    ¬ (computeGpuMetrics 0 2).alloc ≤ (computeGpuMetrics 0 2).total := by
  constructor
  · simp [gpuJsonFetchRun, fetchTotalGpusJson, fetchAllocatedGpusJson,
      show parseGresGpuCount ['g', 'p', 'u', ':', '2'] = 2 from parseGres_eval_gpu_two]
  · norm_num [computeGpuMetrics]

/-- C4 as amended: for every successful fetch of either variant, Alloc ≥ 0
and Total ≥ 0 hold provided no upstream resource string carries a '-' sign;
the inequality Total ≥ Alloc is not guaranteed, because Total and Alloc are
sums over records of two independent upstream sources. -/
theorem claim_C4_amended_nonneg :
    (∀ (inp : GpuFetchInputs) (ds ds' : ScraperDurations) (m : GpuMetrics) (n : Nat)
      (sresp : sinfoGpuResponse) (jresp : sacctGpuResponse),
      gpuJsonFetchRun inp ds = (.ok m, ds', n) →
      inp.sinfoIn = .ok sresp → inp.sacctIn = .ok jresp →
      (∀ g ∈ sresp.nodes, '-' ∉ g) → (∀ g ∈ jresp.jobs, '-' ∉ g) →
      0 ≤ m.alloc ∧ 0 ≤ m.total) ∧
    (∀ (csv : List Char → Except (List Char) (List (List (List Char))))
      (inp : GpuCliFetchInputs) (ds ds' : ScraperDurations) (m : GpuMetrics) (n : Nat),
      gpuCliFetchRun csv inp ds = (.ok m, ds', n) →
      (∀ out recs, csv out = .ok recs → ∀ r ∈ recs, ∀ f ∈ r, '-' ∉ f) →
      (∀ bs, inp.sacctRaw = .ok bs → '-' ∉ bs) →
      0 ≤ m.alloc ∧ 0 ≤ m.total) := by
  constructor
  · intro inp ds ds' m n sresp jresp h hsi hji hs hj
    obtain ⟨sresp', jresp', hsi', hji', _, _, hm⟩ := gpuJsonFetchRun_ok_inv inp ds ds' m n h
    rw [hsi'] at hsi
    rw [hji'] at hji
    cases hsi
    cases hji
    rw [hm]
    exact ⟨sum_map_parseGres_nonneg _ hj, sum_map_parseGres_nonneg _ hs⟩
  · intro csv inp ds ds' m n h hcsv hab
    obtain ⟨sbs, abs, t, a, hsi', hji', ht, ha, hm⟩ := gpuCliFetchRun_ok_inv csv inp ds ds' m n h
    have htn : 0 ≤ t := by
      rcases ht with ⟨_, rfl⟩ | ⟨recs, hrecs, rfl⟩
      · rfl
      · refine List.sum_nonneg (fun x hx => ?_)
        rcases List.mem_map.mp hx with ⟨r, hr, hrx⟩
        exact hrx ▸ cliRecordGpus_nonneg r (fun f hf => hcsv _ recs hrecs r hr f hf)
    have han : 0 ≤ a := by
      rcases ha with ⟨_, rfl⟩ | rfl
      · rfl
      · refine List.sum_nonneg (fun x hx => ?_)
        rcases List.mem_map.mp hx with ⟨line, hline, hlx⟩
        refine hlx ▸ cliLineGpus_nonneg line (fun hmem => ?_)
        have h1 := mem_of_mem_splitOnChar '\n' '-' _ _ hline hmem
        exact hab abs hji' (mem_of_mem_trimSpace '-' _ h1)
    rw [hm]
    exact ⟨han, htn⟩

/-- Witness for the amended C4 at concrete inputs: empty record lists in the
JSON variant and a one-record matrix in the CLI variant, all free of '-'. -/
theorem claim_C4_amended_nonneg_witness :
    (0 ≤ (computeGpuMetrics 0 0).alloc ∧ 0 ≤ (computeGpuMetrics 0 0).total) ∧
    (0 ≤ (computeGpuMetrics 0 0).alloc ∧ 0 ≤ (computeGpuMetrics 0 0).total) := by
  constructor
  · exact claim_C4_amended_nonneg.1 ⟨.ok ⟨[], []⟩, 0, .ok ⟨[], []⟩, 0⟩ ⟨0, 0⟩ ⟨0, 0⟩
      (computeGpuMetrics 0 0) 0 ⟨[], []⟩ ⟨[], []⟩
      (by simp [gpuJsonFetchRun, fetchTotalGpusJson, fetchAllocatedGpusJson])
      rfl rfl (by simp) (by simp)
  · exact claim_C4_amended_nonneg.2 (fun _ => .error "unused".data)
      ⟨.ok [], 0, .ok [], 0⟩ ⟨0, 0⟩ ⟨0, 0⟩ (computeGpuMetrics 0 0) 0
      (by simp [gpuCliFetchRun, fetchTotalGpusCli, fetchAllocatedGpusCli, trimSpace])
      (by intro out recs hr; simp at hr)
      (by intro bs hbs; simp at hbs; rw [hbs]; exact List.not_mem_nil '-')

/-! ### Claims about the resource-string parser: totality, sign, symmetry -/

/-- Bool-to-Prop bridge for the membership test. -/
theorem containsChar_iff (c : Char) (s : List Char) : containsChar c s = true ↔ c ∈ s := by
  simp [containsChar]

/-- C6 counterexample: the token "gpu:-2" — whose count field carries a
minus sign accepted by ParseFloat — parses to -2, a negative quantity,
refuting "its result is a non-negative quantity". -/
theorem claim_C6_counterexample :
    parseGresGpuCount "gpu:-2".data = -2 ∧ parseGresGpuCount "gpu:-2".data < 0 := by
  have h : parseGresGpuCount "gpu:-2".data = -2 := by
    rw [parseGres_single_branch _ (by decide) (by decide) (by decide)]
    rw [singleGres_eval _ ⟨true, 2, 0, false, 0⟩ (by decide) (by decide) (by decide)]
    norm_num [ratOfRep, expScale]
  exact ⟨h, by rw [h]; norm_num⟩

/-- C6 as amended: `parseGresGpuCount` is a total pure function (every input
yields a value; parse failures degrade to zero by construction), the sentinel
inputs "", "N/A" and "(null)" all yield 0, and the result is non-negative for
every input free of the '-' sign character; an input whose count field is
negative parses to that negative value. -/
theorem claim_C6_amended_sentinels_nonneg :
    parseGresGpuCount "".data = 0 ∧ parseGresGpuCount "N/A".data = 0 ∧
    parseGresGpuCount "(null)".data = 0 ∧
    ∀ s : List Char, '-' ∉ s → 0 ≤ parseGresGpuCount s :=
  ⟨rfl, rfl, rfl, parseGresGpuCount_nonneg⟩

/-- Witness for the amended C6 at a concrete input free of '-'. -/
theorem claim_C6_amended_sentinels_nonneg_witness :
    0 ≤ parseGresGpuCount "gpu:2".data :=
  claim_C6_amended_sentinels_nonneg.2.2.2 "gpu:2".data (by decide)

/-- Joining at least two '='-free comma-free terms lands in the comma branch
and sums the per-term parses. -/
theorem parseGres_join_sum (l : List (List Char)) (t u : List Char) (us : List (List Char))
    (hl : l = t :: u :: us) (hterms : ∀ x ∈ l, '=' ∉ x ∧ ',' ∉ x) :
    parseGresGpuCount (joinChar ',' l) = (l.map parseGresPart).sum := by
  subst hl
  have hcm : ',' ∈ joinChar ',' (t :: u :: us) := sep_mem_joinChar ',' t u us
  have hcomma : containsChar ',' (joinChar ',' (t :: u :: us)) = true :=
    (containsChar_iff _ _).mpr hcm
  have heq : containsChar '=' (joinChar ',' (t :: u :: us)) = false := by
    simp only [containsChar, decide_eq_false_iff_not]
    intro hmem
    rcases mem_joinChar ',' '=' _ hmem with h1 | ⟨x, hx, hax⟩
    · exact absurd h1 (by decide)
    · exact (hterms x hx).1 hax
  have h0 : ¬(joinChar ',' (t :: u :: us) = [] ∨
      joinChar ',' (t :: u :: us) = "N/A".data ∨
      joinChar ',' (t :: u :: us) = "(null)".data) := by
    rintro (he | he | he)
    · rw [he] at hcm; exact absurd hcm (List.not_mem_nil ',')
    · rw [he] at hcm; exact absurd hcm (by decide)
    · rw [he] at hcm; exact absurd hcm (by decide)
  rw [parseGres_comma_branch _ h0 heq hcomma,
    splitOnChar_joinChar ',' _ (by simp) (fun x hx => (hterms x hx).2)]

/-- C7 counterexample: a TRES string with two gres/gpu-prefixed keys. The
scan returns the first match, so permuting the comma-separated terms changes
the parsed quantity from 2 to 3, refuting order-independence as universally
stated. -/
theorem claim_C7_counterexample :
    parseGresGpuCount "gres/gpu=2,gres/gpu:tesla=3".data = 2 ∧
    parseGresGpuCount "gres/gpu:tesla=3,gres/gpu=2".data = 3 ∧
    parseGresGpuCount "gres/gpu=2,gres/gpu:tesla=3".data
      ≠ parseGresGpuCount "gres/gpu:tesla=3,gres/gpu=2".data := by
  have h1 : parseGresGpuCount "gres/gpu=2,gres/gpu:tesla=3".data = 2 := by
    rw [parseGres_tres_branch _ (by decide) (by decide)]
    rw [show splitOnChar ',' "gres/gpu=2,gres/gpu:tesla=3".data
        = ["gres/gpu=2".data, "gres/gpu:tesla=3".data] from by decide]
    rw [tresLoop_hit _ _ ⟨false, 2, 0, false, 0⟩ (by decide) (by decide) (by decide)]
    norm_num [ratOfRep, expScale]
  have h2 : parseGresGpuCount "gres/gpu:tesla=3,gres/gpu=2".data = 3 := by
    rw [parseGres_tres_branch _ (by decide) (by decide)]
    rw [show splitOnChar ',' "gres/gpu:tesla=3,gres/gpu=2".data
        = ["gres/gpu:tesla=3".data, "gres/gpu=2".data] from by decide]
    rw [tresLoop_hit _ _ ⟨false, 3, 0, false, 0⟩ (by decide) (by decide) (by decide)]
    norm_num [ratOfRep, expScale]
  exact ⟨h1, h2, by rw [h1, h2]; norm_num⟩

/-- C7 as amended: parsing is order-independent across comma-separated terms
for legacy GRES-form inputs (terms containing no '=' and no ','), where the
parts are summed; the case-insensitive gpu marker holds in the legacy
single-token test (parse("GPU:3") = parse("gpu:3") = 3); and the cited
equalities hold: parse("gpu:2,gpu:tesla:1") = parse("gpu:tesla:1,gpu:2") = 3.
TRES-form scanning, by contrast, is case-sensitive and returns the first
gres/gpu match, so TRES inputs with several matching keys are
order-dependent. -/
theorem claim_C7_amended_symmetry :
    (∀ l₁ l₂ : List (List Char), l₁.Perm l₂ → (∀ x ∈ l₁, '=' ∉ x ∧ ',' ∉ x) →
      parseGresGpuCount (joinChar ',' l₁) = parseGresGpuCount (joinChar ',' l₂)) ∧
    parseGresGpuCount "GPU:3".data = 3 ∧ parseGresGpuCount "gpu:3".data = 3 ∧
    parseGresGpuCount "gpu:2,gpu:tesla:1".data = 3 ∧
    parseGresGpuCount "gpu:tesla:1,gpu:2".data = 3 := by
  refine ⟨?_, ?_, ?_, ?_, ?_⟩
  · intro l₁ l₂ hperm hterms
    rcases l₁ with _ | ⟨t, ts⟩
    · rw [List.perm_nil.mp hperm.symm]
    · rcases ts with _ | ⟨u, us⟩
      · rw [List.perm_singleton.mp hperm.symm]
      · have hterms2 : ∀ x ∈ l₂, '=' ∉ x ∧ ',' ∉ x :=
          fun x hx => hterms x (hperm.mem_iff.mpr hx)
        obtain ⟨v, w, ws, hl2⟩ : ∃ v w ws, l₂ = v :: w :: ws := by
          have hlen := hperm.length_eq
          rcases l₂ with _ | ⟨v, _ | ⟨w, ws⟩⟩
          · simp at hlen
          · simp at hlen
          · exact ⟨v, w, ws, rfl⟩
        rw [parseGres_join_sum _ t u us rfl hterms,
          parseGres_join_sum _ v w ws hl2 hterms2]
        exact (hperm.map parseGresPart).sum_eq
  · rw [parseGres_single_branch _ (by decide) (by decide) (by decide)]
    rw [singleGres_eval _ ⟨false, 3, 0, false, 0⟩ (by decide) (by decide) (by decide)]
    norm_num [ratOfRep, expScale]
  · rw [parseGres_single_branch _ (by decide) (by decide) (by decide)]
    rw [singleGres_eval _ ⟨false, 3, 0, false, 0⟩ (by decide) (by decide) (by decide)]
    norm_num [ratOfRep, expScale]
  · rw [parseGres_comma_branch _ (by decide) (by decide) (by decide)]
    rw [show splitOnChar ',' "gpu:2,gpu:tesla:1".data
        = ["gpu:2".data, "gpu:tesla:1".data] from by decide]
    simp only [List.map, List.sum_cons, List.sum_nil]
    rw [parseGresPart_single _ (by decide) (by decide),
        parseGresPart_single _ (by decide) (by decide)]
    rw [show trimSpace "gpu:2".data = "gpu:2".data from by decide,
        show trimSpace "gpu:tesla:1".data = "gpu:tesla:1".data from by decide]
    rw [singleGres_eval _ ⟨false, 2, 0, false, 0⟩ (by decide) (by decide) (by decide)]
    rw [singleGres_eval _ ⟨false, 1, 0, false, 0⟩ (by decide) (by decide) (by decide)]
    norm_num [ratOfRep, expScale]
  · rw [parseGres_comma_branch _ (by decide) (by decide) (by decide)]
    rw [show splitOnChar ',' "gpu:tesla:1,gpu:2".data
        = ["gpu:tesla:1".data, "gpu:2".data] from by decide]
    simp only [List.map, List.sum_cons, List.sum_nil]
    rw [parseGresPart_single _ (by decide) (by decide),
        parseGresPart_single _ (by decide) (by decide)]
    rw [show trimSpace "gpu:tesla:1".data = "gpu:tesla:1".data from by decide,
        show trimSpace "gpu:2".data = "gpu:2".data from by decide]
    rw [singleGres_eval _ ⟨false, 1, 0, false, 0⟩ (by decide) (by decide) (by decide)]
    rw [singleGres_eval _ ⟨false, 2, 0, false, 0⟩ (by decide) (by decide) (by decide)]
    norm_num [ratOfRep, expScale]

/-- Witness for the amended C7: the order-independence part instantiated at
the two-term GRES list from the specification example. -/
theorem claim_C7_amended_symmetry_witness :
    parseGresGpuCount (joinChar ',' ["gpu:2".data, "gpu:tesla:1".data])
      = parseGresGpuCount (joinChar ',' ["gpu:tesla:1".data, "gpu:2".data]) :=
  claim_C7_amended_symmetry.1 ["gpu:2".data, "gpu:tesla:1".data]
    ["gpu:tesla:1".data, "gpu:2".data] (List.Perm.swap _ _ _) (by decide)

/-! ### C5: the TRES rule as the specification words it -/

/-- Index of the first occurrence is bounded by the length. -/
theorem indexOfChar_le_length (c : Char) (s : List Char) : indexOfChar c s ≤ s.length := by
  induction s with
  | nil => simp [indexOfChar]
  | cons x xs ih =>
    simp only [indexOfChar, List.length_cons]
    split_ifs
    · omega
    · omega

/-- A prefix avoiding `c` forces the first occurrence of `c` past it. -/
theorem length_le_indexOfChar_of_prefix (pre l : List Char) (c : Char)
    (hpre : pre.isPrefixOf l = true) (hc : c ∉ pre) :
    pre.length ≤ indexOfChar c l := by
  induction pre generalizing l with
  | nil => simp
  | cons x xs ih =>
    rcases l with _ | ⟨y, ys⟩
    · simp [List.isPrefixOf] at hpre
    · simp only [List.isPrefixOf, Bool.and_eq_true, beq_iff_eq] at hpre
      obtain ⟨rfl, htail⟩ := hpre
      have hxc : ¬ x = c := fun hxc => hc (hxc ▸ List.mem_cons_self x xs)
      have hcxs : c ∉ xs := fun hm => hc (List.mem_cons_of_mem x hm)
      simp only [indexOfChar, if_neg hxc, List.length_cons]
      exact Nat.succ_le_succ (ih ys htail hcxs)

/-- A prefix short enough survives truncation. -/
theorem isPrefixOf_take (pre l : List Char) (i : Nat)
    (hpre : pre.isPrefixOf l = true) (hi : pre.length ≤ i) :
    pre.isPrefixOf (l.take i) = true := by
  rw [List.isPrefixOf_iff_prefix] at hpre ⊢
  obtain ⟨t, rfl⟩ := hpre
  rw [List.take_append_eq_append_take, List.take_of_length_le hi]
  exact ⟨t.take (i - pre.length), rfl⟩

/-- A prefix of a truncation is a prefix of the whole. -/
theorem isPrefixOf_of_take (pre l : List Char) (i : Nat)
    (h : pre.isPrefixOf (l.take i) = true) : pre.isPrefixOf l = true := by
  rw [List.isPrefixOf_iff_prefix] at h ⊢
  exact h.trans (List.take_prefix i l)

/-- Modelled from the spec: one key=value pair of the TRES scan, as section
4.4 item 2 words it. The key of a (trimmed) pair is the text before its
first '='; a pair whose key begins with "gres/gpu" and whose value — the
text after that '=' — parses as a floating-point quantity produces that
quantity; any other pair (including one with no '=' at all, which is not a
key=value pair) produces nothing. -/
def tresKeyValue (p0 : List Char) : Option ℚ :=
  let p := trimSpace p0
  let i := indexOfChar '=' p
  if i < p.length ∧ ("gres/gpu".data).isPrefixOf (p.take i) then
    parseFloatQ (p.drop (i + 1))
  else none

/-- Modelled from the spec: the scan over the comma-separated pairs — the
first pair producing a quantity wins. -/
def tresSpecScan : List (List Char) → Option ℚ
  | [] => none
  | p :: rest =>
    match tresKeyValue p with
    | some c => some c
    | none => tresSpecScan rest

/-- Modelled from the spec: the whole TRES rule — split on ',', scan for the
first gres/gpu-keyed quantity, return 0 when no such key exists. -/
def tresSpec (s : List Char) : ℚ :=
  (tresSpecScan (splitOnChar ',' s)).getD 0

/-- The code's TRES loop computes exactly the specification's scan. -/
theorem tresLoop_eq_tresSpecScan (l : List (List Char)) :
    tresLoop l = (tresSpecScan l).getD 0 := by
  induction l with
  | nil => rfl
  | cons p rest ih =>
    by_cases hA : ("gres/gpu".data).isPrefixOf (trimSpace p) = true
    · have hlen : ("gres/gpu".data).length ≤ indexOfChar '=' (trimSpace p) :=
        length_le_indexOfChar_of_prefix _ _ '=' hA (by decide)
      by_cases hB : indexOfChar '=' (trimSpace p) + 1 < (trimSpace p).length
      · have hcond : indexOfChar '=' (trimSpace p) < (trimSpace p).length ∧
            ("gres/gpu".data).isPrefixOf
              ((trimSpace p).take (indexOfChar '=' (trimSpace p))) = true :=
          ⟨by omega, isPrefixOf_take _ _ _ hA hlen⟩
        rcases hC : parseFloatQ ((trimSpace p).drop (indexOfChar '=' (trimSpace p) + 1))
          with _ | c
        · have hcode : tresLoop (p :: rest) = tresLoop rest := by
            simp [tresLoop, hA, hB, hC]
          have hspec : tresKeyValue p = none := by
            simp only [tresKeyValue, if_pos hcond]
            exact hC
          rw [hcode, ih]
          simp [tresSpecScan, hspec]
        · have hcode : tresLoop (p :: rest) = c := by
            simp [tresLoop, hA, hB, hC]
          have hspec : tresKeyValue p = some c := by
            simp only [tresKeyValue, if_pos hcond]
            exact hC
          rw [hcode]
          simp [tresSpecScan, hspec]
      · have hcode : tresLoop (p :: rest) = tresLoop rest := by
          simp [tresLoop, hA, hB]
        have hspec : tresKeyValue p = none := by
          by_cases hI : indexOfChar '=' (trimSpace p) < (trimSpace p).length
          · have hdrop : (trimSpace p).drop (indexOfChar '=' (trimSpace p) + 1) = [] :=
              List.drop_eq_nil_of_le (by omega)
            simp only [tresKeyValue]
            split_ifs with hcond
            · rw [hdrop]; rfl
            · rfl
          · simp only [tresKeyValue]
            rw [if_neg (fun hcond => hI hcond.1)]
        rw [hcode, ih]
        simp [tresSpecScan, hspec]
    · have hcode : tresLoop (p :: rest) = tresLoop rest := by
        simp only [Bool.not_eq_true] at hA
        simp [tresLoop, hA]
      have hspec : tresKeyValue p = none := by
        simp only [tresKeyValue]
        rw [if_neg (fun hcond => hA (isPrefixOf_of_take _ _ _ hcond.2))]
      rw [hcode, ih]
      simp [tresSpecScan, hspec]

/-- C5: on every input containing '=', `parseGresGpuCount` computes exactly
the specified TRES rule — comma-separated key=value pairs, first key
beginning with gres/gpu (type-qualified keys included) whose value parses as
a float wins, 0 when no such key exists, all other keys ignored; in
particular parse("cpu=4,mem=1024M,gres/gpu=2") = 2 and parse("cpu=8") = 0. -/
theorem claim_C5_tres_rule :
    (∀ s : List Char, containsChar '=' s = true → parseGresGpuCount s = tresSpec s) ∧
    parseGresGpuCount "cpu=4,mem=1024M,gres/gpu=2".data = 2 ∧
    parseGresGpuCount "cpu=8".data = 0 := by
  refine ⟨?_, ?_, ?_⟩
  · intro s hs
    have hmem : '=' ∈ s := (containsChar_iff '=' s).mp hs
    have h0 : ¬(s = [] ∨ s = "N/A".data ∨ s = "(null)".data) := by
      rintro (he | he | he)
      · rw [he] at hmem; exact absurd hmem (List.not_mem_nil '=')
      · rw [he] at hmem; exact absurd hmem (by decide)
      · rw [he] at hmem; exact absurd hmem (by decide)
    rw [parseGres_tres_branch s h0 hs, tresSpec, tresLoop_eq_tresSpecScan]
  · rw [parseGres_tres_branch _ (by decide) (by decide)]
    rw [show splitOnChar ',' "cpu=4,mem=1024M,gres/gpu=2".data
        = ["cpu=4".data, "mem=1024M".data, "gres/gpu=2".data] from by decide]
    rw [tresLoop_skip _ _ (by decide), tresLoop_skip _ _ (by decide)]
    rw [tresLoop_hit _ _ ⟨false, 2, 0, false, 0⟩ (by decide) (by decide) (by decide)]
    norm_num [ratOfRep, expScale]
  · rw [parseGres_tres_branch _ (by decide) (by decide)]
    rw [show splitOnChar ',' "cpu=8".data = ["cpu=8".data] from by decide]
    rw [tresLoop_skip _ _ (by decide)]
    rfl

/-- Witness for C5: the refinement instantiated at a concrete TRES string. -/
theorem claim_C5_tres_rule_witness :
    parseGresGpuCount "billing=8,gres/gpu=4".data = tresSpec "billing=8,gres/gpu=4".data :=
  claim_C5_tres_rule.1 "billing=8,gres/gpu=4".data (by decide)

/-! ### C8: error propagation and the counter, C10: scrape duration -/

/-- C8 counterexample: a transport failure (the sinfo subprocess could not
run) aborts the fetch and surfaces as a failure, but the error-counter
increment is zero — the code increments the counter only for
upstream-reported errors and for CSV parse failures, refuting "is logged,
increments the domain error counter" for the transport kind. -/
theorem claim_C8_counterexample :
    (fetchTotalGpusJson (.transportErr "boom".data)).1 = .error (.transport "boom".data) ∧
    (fetchTotalGpusJson (.transportErr "boom".data)).2 = 0 :=
  ⟨rfl, rfl⟩

/-- C8 as amended: transport and decode failures abort the fetch cycle and
surface as failures with no counter increment; an upstream-reported error
list aborts and increments the counter by the number of entries, failing
with the first entry; a malformed delimited payload aborts and increments
the counter by one; a delimited row with too few fields is silently skipped
(zero contribution), not an abort; and a failing fetch surfaces as the
result of the FetchMetrics step on every cache miss. -/
theorem claim_C8_amended_error_propagation :
    (∀ e, fetchTotalGpusJson (.transportErr e) = (.error (.transport e), 0)) ∧
    (∀ e, fetchTotalGpusJson (.decodeErr e) = (.error (.decode e), 0)) ∧
    (∀ (resp : sinfoGpuResponse) e es, resp.errors = e :: es →
      fetchTotalGpusJson (.ok resp) = (.error (.upstream e), es.length + 1)) ∧
    (∀ e, fetchAllocatedGpusJson (.transportErr e) = (.error (.transport e), 0)) ∧
    (∀ e, fetchAllocatedGpusJson (.decodeErr e) = (.error (.decode e), 0)) ∧
    (∀ (resp : sacctGpuResponse) e es, resp.errors = e :: es →
      fetchAllocatedGpusJson (.ok resp) = (.error (.upstream e), es.length + 1)) ∧
    (∀ csv e, fetchTotalGpusCli csv (.error e) = (.error (.transport e), 0)) ∧
    (∀ csv out e, trimSpace out ≠ [] → csv (trimSpace out) = .error e →
      fetchTotalGpusCli csv (.ok out) = (.error (.malformed e), 1)) ∧
    (∀ r : List (List Char), r.length < 2 → cliRecordGpus r = 0) ∧
    (∀ (Er : Type) (st : GpuCacheState) (now d : ℚ) (e : Er),
      (st.cache = none ∨ ¬ now - st.t < st.limit) →
      (fetchMetricsStep now (.error e) d st).1 = .error e) := by
  refine ⟨fun e => rfl, fun e => rfl, ?_, fun e => rfl, fun e => rfl, ?_,
    fun csv e => rfl, ?_, ?_, ?_⟩
  · intro resp e es h
    simp [fetchTotalGpusJson, h]
  · intro resp e es h
    simp [fetchAllocatedGpusJson, h]
  · intro csv out e hne hcsv
    simp [fetchTotalGpusCli, hne, hcsv]
  · intro r h
    simp [cliRecordGpus, h]
  · intro Er st now d e hmiss
    rw [fetchMetricsStep_miss_error now d e st hmiss]

/-- Witness for the amended C8 at concrete inputs: an upstream error list of
one entry, a CSV reader failure, a one-field row, and a miss against an
empty cache. -/
theorem claim_C8_amended_error_propagation_witness :
    fetchTotalGpusJson (.ok ⟨["bad".data], []⟩) = (.error (.upstream "bad".data), 1) ∧
    fetchTotalGpusCli (fun _ => .error "row".data) (.ok "a".data)
      = (.error (.malformed "row".data), 1) ∧
    cliRecordGpus [[]] = 0 ∧
    (@fetchMetricsStep GpuErr 0 (.error (.transport [])) 0 ⟨0, 10, none, 0⟩).1
      = .error (.transport []) := by
  obtain ⟨h1, h2, h3, h4, h5, h6, h7, h8, h9, h10⟩ := claim_C8_amended_error_propagation
  exact ⟨h3 ⟨["bad".data], []⟩ "bad".data [] rfl,
    h8 (fun _ => .error "row".data) "a".data "row".data (by decide) rfl,
    h9 [[]] (by norm_num),
    h10 GpuErr ⟨0, 10, none, 0⟩ 0 0 (.transport []) (Or.inl rfl)⟩

/-- C10 counterexample: a successful JSON-variant fetch whose sinfo scrape
took 1 second and whose sacct scrape — the most recent underlying scraper
call, since sacct runs after sinfo — took 2 seconds. ScrapeDuration reports
1, the sinfo scraper's duration, not the duration of the most recent scraper
call. -/
theorem claim_C10_counterexample :
    (gpuJsonFetchRun ⟨.ok ⟨[], []⟩, 1, .ok ⟨[], []⟩, 2⟩ ⟨0, 0⟩).1
        = .ok (computeGpuMetrics 0 0) ∧
    scrapeDuration (gpuJsonFetchRun ⟨.ok ⟨[], []⟩, 1, .ok ⟨[], []⟩, 2⟩ ⟨0, 0⟩).2.1 = 1 ∧
    (gpuJsonFetchRun ⟨.ok ⟨[], []⟩, 1, .ok ⟨[], []⟩, 2⟩ ⟨0, 0⟩).2.1.sacctDuration = 2 ∧
    scrapeDuration (gpuJsonFetchRun ⟨.ok ⟨[], []⟩, 1, .ok ⟨[], []⟩, 2⟩ ⟨0, 0⟩).2.1
      ≠ (gpuJsonFetchRun ⟨.ok ⟨[], []⟩, 1, .ok ⟨[], []⟩, 2⟩ ⟨0, 0⟩).2.1.sacctDuration := by
  refine ⟨?_, ?_, ?_, ?_⟩
  · simp [gpuJsonFetchRun, fetchTotalGpusJson, fetchAllocatedGpusJson]
  · simp [gpuJsonFetchRun, fetchTotalGpusJson, fetchAllocatedGpusJson, scrapeDuration]
  · simp [gpuJsonFetchRun, fetchTotalGpusJson, fetchAllocatedGpusJson]
  · simp [gpuJsonFetchRun, fetchTotalGpusJson, fetchAllocatedGpusJson, scrapeDuration]

/-- C10 as amended: for both fetcher variants, ScrapeDuration after any
fetch cycle reports the wall time of that cycle's sinfo scraper invocation —
the first of the two scraper calls — not of the most recent scraper call
(the sacct invocation, when the cycle reaches it). -/
theorem claim_C10_amended_scrape_duration :
    (∀ (inp : GpuFetchInputs) (ds : ScraperDurations),
      scrapeDuration (gpuJsonFetchRun inp ds).2.1 = inp.sinfoElapsed) ∧
    (∀ (csv : List Char → Except (List Char) (List (List (List Char))))
      (inp : GpuCliFetchInputs) (ds : ScraperDurations),
      scrapeDuration (gpuCliFetchRun csv inp ds).2.1 = inp.sinfoElapsed) := by
  constructor
  · intro inp ds
    rcases h1 : fetchTotalGpusJson inp.sinfoIn with ⟨r1, n1⟩
    rcases r1 with e1 | tot
    · simp [gpuJsonFetchRun, h1, scrapeDuration]
    · rcases h2 : fetchAllocatedGpusJson inp.sacctIn with ⟨r2, n2⟩
      rcases r2 with e2 | alloc
      · simp [gpuJsonFetchRun, h1, h2, scrapeDuration]
      · simp [gpuJsonFetchRun, h1, h2, scrapeDuration]
  · intro csv inp ds
    rcases h1 : fetchTotalGpusCli csv inp.sinfoRaw with ⟨r1, n1⟩
    rcases r1 with e1 | tot
    · simp [gpuCliFetchRun, h1, scrapeDuration]
    · rcases h2 : fetchAllocatedGpusCli inp.sacctRaw with ⟨r2, n2⟩
      rcases r2 with e2 | alloc
      · simp [gpuCliFetchRun, h1, h2, scrapeDuration]
      · simp [gpuCliFetchRun, h1, h2, scrapeDuration]
